import Mathlib

/-!
Shallow embedding of the htmlgen library (src/src/htmlgen/__init__.py).

Python strings are modelled as Lean `String`; Python dicts (insertion
ordered, update-in-place) as association lists `List (String × α)` with
`dictInsert`; Python sets iterated in some order as `List String`.
Logger warnings do not affect return values and are omitted, except the
duplicate-classname warning of `Registry.style`, which is modelled as an
explicit boolean output because a claim is about it.
-/

namespace Htmlgen

/-- Python `sep.join(items)`. -/
def joinStr (sep : String) : List String → String
  | [] => ""
  | [s] => s
  | s :: rest => s ++ sep ++ joinStr sep rest

/-- Replace every occurrence of the character `pat` by the string `rep`
(Python `s.replace(pat, rep)` for a one-character pattern, which is the
only shape the source uses). -/
def replaceAll (pat : Char) (rep : List Char) : List Char → List Char
  | [] => []
  | c :: cs => if c = pat then rep ++ replaceAll pat rep cs else c :: replaceAll pat rep cs

/-- Python `s.replace(pat, rep)` with a one-character pattern. -/
def pyReplaceChar (s : String) (pat : Char) (rep : String) : String :=
  ⟨replaceAll pat rep.data s.data⟩

/-- Python `html.escape(s)` with `quote=True` (the default): the five
substitutions in the order the standard library performs them. -/
def htmlEscape (s : String) : String :=
  pyReplaceChar
    (pyReplaceChar
      (pyReplaceChar
        (pyReplaceChar
          (pyReplaceChar s '&' "&amp;")
          '<' "&lt;")
        '>' "&gt;")
      '\x22' "&quot;")
    '\x27' "&#x27;"

/-- Python `s.removesuffix(suf)`. -/
def pyRemoveSuffix (s suf : String) : String :=
  if suf ≠ "" ∧ suf.data.isSuffixOf s.data then
    ⟨s.data.take (s.data.length - suf.data.length)⟩
  else s

/-- Python `s.strip()`. -/
def pyStrip (s : String) : String :=
  ⟨((s.data.dropWhile Char.isWhitespace).reverse.dropWhile Char.isWhitespace).reverse⟩

/-- Split a character list at newline characters (the separators are
removed; a trailing newline yields a final empty line, matching how
`textwrap` treats text line by line). -/
def splitNl : List Char → List (List Char)
  | [] => [[]]
  | c :: cs =>
    if c = '\n' then [] :: splitNl cs
    else
      match splitNl cs with
      | l :: ls => (c :: l) :: ls
      | [] => [[c]]

/-- Python `textwrap.indent(s, "  ")`: prefix two spaces to every line
that contains a non-whitespace character. -/
def pyIndent (s : String) : String :=
  joinStr "\n" ((splitNl s.data).map fun l =>
    if l.any (fun c => !c.isWhitespace) then ⟨' ' :: ' ' :: l⟩ else ⟨l⟩)

/-- A line of one or more spaces/tabs only (`textwrap.dedent`'s
whitespace-only-line test). -/
def wsOnlyLine (l : List Char) : Bool :=
  !l.isEmpty && l.all (fun c => c = ' ' || c = '\t')

/-- Leading run of spaces and tabs of a line. -/
def leadingWs (l : List Char) : List Char :=
  l.takeWhile (fun c => c = ' ' || c = '\t')

/-- Longest common prefix of two character lists. -/
def lcp : List Char → List Char → List Char
  | x :: xs, y :: ys => if x = y then x :: lcp xs ys else []
  | _, _ => []

/-- Python `textwrap.dedent(s)`: whitespace-only lines are normalised to
empty, the common leading space/tab margin of the remaining nonempty
lines is computed, and that margin is removed from every line. -/
def pyDedent (s : String) : String :=
  let lines := (splitNl s.data).map fun l => if wsOnlyLine l then [] else l
  let indents := (lines.filter fun l =>
    l.any (fun c => !(c = ' ' || c = '\t'))).map leadingWs
  let stripped :=
    match indents with
    | [] => lines
    | i :: rest =>
      let margin := rest.foldl lcp i
      lines.map fun l => if margin.isPrefixOf l then l.drop margin.length else l
  joinStr "\n" (stripped.map fun l => ⟨l⟩)

/-- A Python attribute value: `str`, `bool`, or `None`. -/
inductive AttrValue where
  | str (s : String)
  | bool (b : Bool)
  | none
deriving DecidableEq, Repr

/-- The renderable node variants: `Element`, `HtmlSequence`, `HtmlStr`. -/
inductive Html where
  | elem (type : String) (attributes : List (String × AttrValue))
      (children : List Html) (classes : List String)
  | seq (children : List Html)
  | str (s : String)

/-- The `VOID_ELEMENTS` set. -/
def VOID_ELEMENTS : List String :=
  ["area", "base", "br", "col", "embed", "hr", "img", "input", "link",
   "meta", "source", "track", "wbr"]

/-- The `NO_INDENT_ELEMENTS` set. -/
def NO_INDENT_ELEMENTS : List String :=
  ["pre"]

mutual

/-- The `must_be_inline` property: `True` for `HtmlStr`, `False` for
`Element`, any-child for `HtmlSequence`. -/
def mustBeInline : Html → Bool
  | .str _ => true
  | .elem _ _ _ _ => false
  | .seq cs => anyInline cs

/-- Computes `any(c.must_be_inline for c in children)`. -/
def anyInline : List Html → Bool
  | [] => false
  | c :: cs => mustBeInline c || anyInline cs

end

/-- The loop body of `render_attributes`: `False`/`None` values are
skipped, `True` emits the bare name, a string value emits
`name="escaped"`. -/
def renderAttrsLoop : List (String × AttrValue) → List String
  | [] => []
  | (n, v) :: rest =>
    match v with
    | .bool false => renderAttrsLoop rest
    | .none => renderAttrsLoop rest
    | .bool true => n :: renderAttrsLoop rest
    | .str s => (n ++ "=\x22" ++ htmlEscape s ++ "\x22") :: renderAttrsLoop rest

/-- The function `render_attributes(attrs, classes)`: the optional `class="..."`
item first, then the attribute items, each joined with a leading
space. -/
def renderAttributes (attrs : List (String × AttrValue)) (classes : List String) : String :=
  let classPart : List String :=
    if classes.isEmpty then []
    else ["class=\x22" ++ joinStr " " (classes.map htmlEscape) ++ "\x22"]
  joinStr "" ((classPart ++ renderAttrsLoop attrs).map fun r => " " ++ r)

/-- The function `render_tag(type, attrs, classes, contents, indent, inline)`.  The
unknown-tag check only logs a warning and is omitted. -/
def renderTag (type : String) (attrs : List (String × AttrValue))
    (classes : List String) (contents : Option String)
    (indent : String) (inline : Bool) : String :=
  let indent := if NO_INDENT_ELEMENTS.contains type then "" else indent
  let inline := if NO_INDENT_ELEMENTS.contains type then true else inline
  let renderedAttrs := renderAttributes attrs classes
  match contents with
  | Option.none => indent ++ "<" ++ type ++ renderedAttrs ++ "/>"
  | Option.some c =>
    let openTag := "<" ++ type ++ renderedAttrs ++ ">"
    let closeTag := "</" ++ type ++ ">"
    if inline then indent ++ openTag ++ c ++ closeTag
    else indent ++ openTag ++ "\n" ++ c ++ "\n" ++ indent ++ closeTag

mutual

/-- The method `render(indent, inline)` of each node variant.  For an element the
`inline` parameter is reassigned before use:
`inline = self.must_be_inline or any(c.must_be_inline ...)`, and
`self.must_be_inline` is `False` for elements. -/
def render : Html → String → Bool → String
  | .str s, indent, _ => indent ++ s
  | .seq cs, indent, inline =>
    if inline then joinStr "" (renderList cs "" true)
    else joinStr "\n" (renderList cs indent false)
  | .elem t attrs cs classes, indent, _ =>
    let inline := mustBeInline (.elem t attrs cs classes) || anyInline cs
    let contents : Option String :=
      if VOID_ELEMENTS.contains t then Option.none
      else if inline then Option.some (joinStr "" (renderList cs "" true))
      else Option.some (joinStr "\n" (renderList cs (indent ++ "  ") false))
    renderTag t attrs classes contents indent inline

/-- Renders each child with the given indent and inline mode. -/
def renderList : List Html → String → Bool → List String
  | [], _, _ => []
  | c :: cs, indent, inline => render c indent inline :: renderList cs indent inline

end

/-- An argument to `containing`: a renderable or a bare string. -/
inductive Contents where
  | renderable (h : Html)
  | rawStr (s : String)

/-- The method `containing` wraps bare strings as `HtmlStr`. -/
def contentsToHtml : Contents → Html
  | .renderable h => h
  | .rawStr s => .str s

/-- The method `Element.containing(*items)`: appends the items (strings wrapped as
`HtmlStr`) to the children and returns the element. -/
def Html.containing : Html → List Contents → Html
  | .elem t attrs cs classes, items => .elem t attrs (cs ++ items.map contentsToHtml) classes
  | h, _ => h

/-- Computes `DATA_KEY_PATTERN.fullmatch(key)` for the pattern `[a-z][a-z-]*`. -/
def dataKeyMatch (k : String) : Bool :=
  match k.data with
  | [] => false
  | c :: cs => ('a' ≤ c && c ≤ 'z') && cs.all fun c => ('a' ≤ c && c ≤ 'z') || c = '-'

/-- Python dict assignment `d[k] = v`: updates the value in place when
the key is present, appends otherwise. -/
def dictInsert {α : Type} : List (String × α) → String → α → List (String × α)
  | [], k, v => [(k, v)]
  | (k0, v0) :: rest, k, v =>
    if k0 = k then (k0, v) :: rest else (k0, v0) :: dictInsert rest k v

/-- The method `Element.with_data(data)`: raises `ValueError` (modelled as
`Option.none`) when some key fails the pattern; otherwise updates the
attributes with `data-<key> = value` for each entry. -/
def withData (t : String) (attrs : List (String × AttrValue))
    (cs : List Html) (classes : List String)
    (data : List (String × String)) : Option Html :=
  if data.all (fun kv => dataKeyMatch kv.1) then
    Option.some (.elem t
      (data.foldl (fun acc kv => dictInsert acc ("data-" ++ kv.1) (.str kv.2)) attrs)
      cs classes)
  else Option.none

/-- The constructor `HtmlStr.escape(s)`: escape once at construction time. -/
def HtmlStr.escape (s : String) : Html := .str (htmlEscape s)

/-- The class name `Registry.style` derives from a function name:
underscores become hyphens, one trailing hyphen is stripped. -/
def deriveClassname (funcName : String) : String :=
  pyRemoveSuffix (pyReplaceChar funcName '_' "-") "-"

/-- The decorator `Registry.style(css)` applied to a function named `funcName`, acting
on the registry's `styles` dict.  Returns the new dict and whether the
duplicate-classname warning fired. -/
def styleRegister (styles : List (String × String)) (funcName : String)
    (css : Option String) : List (String × String) × Bool :=
  let classname := deriveClassname funcName
  let warn := (styles.map Prod.fst).contains classname
  let styles :=
    match css with
    | Option.none => styles
    | Option.some c => dictInsert styles classname (pyStrip (pyDedent c))
  (styles, warn)

/-- The method `Registry.render_stylesheet()`. -/
def renderStylesheet (styles : List (String × String)) : String :=
  joinStr "\n" (styles.map fun ns =>
    "." ++ ns.1 ++ " \x7b\n" ++ pyIndent ns.2 ++ "\n\x7d")

/-- Spec-side reading of one attribute entry: boolean `true` emits the
bare name, `false` or absent emits nothing, a string value emits
`name="HTML-escaped value"` in double quotes. -/
def renderAttrItemSpec : String × AttrValue → Option String
  | (n, .bool true) => Option.some n
  | (_, .bool false) => Option.none
  | (_, .none) => Option.none
  | (n, .str v) => Option.some (n ++ "=\x22" ++ htmlEscape v ++ "\x22")

/-- Spec-side reading of the `class="..."` attribute emitted when the
class set is non-empty. -/
def classAttrSpec (classes : List String) : String :=
  "class=\x22" ++ joinStr " " (classes.map htmlEscape) ++ "\x22"

/-- Spec-side reading of the data-key pattern: non-empty, lowercase
letters and hyphens only, starting with a (lowercase) letter. -/
def specDataKeyOk (k : String) : Bool :=
  !k.data.isEmpty
  && k.data.all (fun c => ('a' ≤ c && c ≤ 'z') || c = '-')
  && match k.data.head? with
     | Option.some c => 'a' ≤ c && c ≤ 'z'
     | Option.none => false

/-- Tests whether a node is a text node. -/
def isStrNode : Html → Bool
  | .str _ => true
  | _ => false

/- ------------------------------------------------------------------ -/
/- Helper lemmas                                                       -/
/- ------------------------------------------------------------------ -/

theorem anyInline_eq_any (cs : List Html) : anyInline cs = cs.any mustBeInline := by
  induction cs with
  | nil => rfl
  | cons c cs ih => simp [anyInline, ih]

theorem renderAttrsLoop_eq_filterMap (attrs : List (String × AttrValue)) :
    renderAttrsLoop attrs = attrs.filterMap renderAttrItemSpec := by
  induction attrs with
  | nil => rfl
  | cons kv rest ih =>
    obtain ⟨n, v⟩ := kv
    cases v with
    | str s => simp [renderAttrsLoop, renderAttrItemSpec, ih]
    | bool b => cases b <;> simp [renderAttrsLoop, renderAttrItemSpec, ih]
    | none => simp [renderAttrsLoop, renderAttrItemSpec, ih]

theorem dataKeyMatch_eq_spec (k : String) : dataKeyMatch k = specDataKeyOk k := by
  unfold dataKeyMatch specDataKeyOk
  match k.data with
  | [] => simp
  | c :: cs =>
    cases hA : (decide ('a' ≤ c) && decide (c ≤ 'z'))
    · simp [List.all_cons, hA, Bool.and_comm, Bool.and_assoc, Bool.and_left_comm]
    · have h12 : 'a' ≤ c ∧ c ≤ 'z' := by simpa using hA
      simp [List.all_cons, hA, h12.1, h12.2]

theorem anyInline_of_strChild {cs : List Html} {s : String}
    (h : Html.str s ∈ cs) : anyInline cs = true := by
  rw [anyInline_eq_any]
  exact List.any_eq_true.mpr ⟨Html.str s, h, rfl⟩

/- ------------------------------------------------------------------ -/
/- Claims                                                              -/
/- ------------------------------------------------------------------ -/

/-- C3: against the claim, `render_stylesheet` performs no `&`
substitution at all: for the body `"& > h2 ... "` (a nested-selector
rule) registered under class `demo-box`, the output keeps the literal
`&` and does not contain the substituted text `.demo-box > h2 ...`. -/
theorem c3_stylesheet_keeps_ampersand :
    renderStylesheet [("demo-box", "& > h2 \x7b font-size: 1.5em; \x7d")]
      = ".demo-box \x7b\n  & > h2 \x7b font-size: 1.5em; \x7d\n\x7d"
    ∧ ¬ List.IsInfix ".demo-box > h2 \x7b font-size: 1.5em; \x7d".data
        (renderStylesheet
          [("demo-box", "& > h2 \x7b font-size: 1.5em; \x7d")]).data := by
  constructor
  · decide
  · decide

/-- C5 counterexample: an element node with a text child has
`must_be_inline = False` even though a direct child must be inline, so
"for an element node it is true iff some direct child's must_be_inline
is true" fails at `Element("p")` containing text `"bar"`. -/
theorem c5_element_counterexample :
    ¬ (mustBeInline (Html.elem "p" [] [Html.str "bar"] [])
        = [Html.str "bar"].any mustBeInline) := by
  decide

/-- C5 (amended): `must_be_inline` is true for every text node; for a
sequence node it is true iff some direct child must be inline; for an
element node it is always false. -/
theorem c5_must_be_inline_by_variant :
    (∀ s, mustBeInline (Html.str s) = true)
    ∧ (∀ cs, mustBeInline (Html.seq cs) = cs.any mustBeInline)
    ∧ (∀ t attrs cs classes, mustBeInline (Html.elem t attrs cs classes) = false) :=
  ⟨fun _ => rfl, fun cs => anyInline_eq_any cs, fun _ _ _ _ => rfl⟩

/-- C9: `HtmlStr.escape` performs the entity substitutions for `&`,
`<`, `>` and `"`, and escaping twice is not idempotent: escaping `"&"`
twice yields `"&amp;amp;"`, not `"&amp;"`. -/
theorem c9_escape_substitutions_not_idempotent :
    HtmlStr.escape "&" = Html.str "&amp;"
    ∧ HtmlStr.escape "<" = Html.str "&lt;"
    ∧ HtmlStr.escape ">" = Html.str "&gt;"
    ∧ HtmlStr.escape "\x22" = Html.str "&quot;"
    ∧ ∃ s, htmlEscape (htmlEscape s) ≠ htmlEscape s :=
  ⟨congrArg Html.str (by decide), congrArg Html.str (by decide),
   congrArg Html.str (by decide), congrArg Html.str (by decide),
   ⟨"&", by decide⟩⟩

/-- C10: `Element.render` discards the caller-supplied inline flag: the
effective inline mode is recomputed from the children, so rendering
with `inline=true` and `inline=false` gives the same string. -/
theorem c10_inline_flag_ignored (t : String) (attrs : List (String × AttrValue))
    (cs : List Html) (classes : List String) (indent : String) :
    render (Html.elem t attrs cs classes) indent true
      = render (Html.elem t attrs cs classes) indent false := rfl

/-- C1: a void element renders to a string ending in `/>` and its
output does not depend on the children, however many were appended via
`containing`, for every indent and inline flag. -/
theorem c1_void_render (t : String) (attrs : List (String × AttrValue))
    (classes : List String) (cs0 : List Html) (items : List Contents)
    (indent : String) (inline : Bool) (hv : t ∈ VOID_ELEMENTS) :
    (∃ s, render ((Html.elem t attrs cs0 classes).containing items) indent inline
        = s ++ "/>")
    ∧ render ((Html.elem t attrs cs0 classes).containing items) indent inline
        = render (Html.elem t attrs [] classes) indent inline := by
  have hv' : VOID_ELEMENTS.contains t = true := by
    simpa [List.contains] using List.elem_iff.mpr hv
  refine ⟨⟨(if NO_INDENT_ELEMENTS.contains t then "" else indent) ++ "<" ++ t
      ++ renderAttributes attrs classes, ?_⟩, ?_⟩
  · simp [Html.containing, render, mustBeInline, renderTag, hv, String.append_assoc]
  · simp [Html.containing, render, mustBeInline, renderTag, hv]

/-- C1 witness: the `br` tag with an appended text child, at a concrete
indent and inline flag. -/
theorem c1_void_render_witness :
    (∃ s, render ((Html.elem "br" [] [] []).containing [Contents.rawStr "x"]) "  " false
        = s ++ "/>")
    ∧ render ((Html.elem "br" [] [] []).containing [Contents.rawStr "x"]) "  " false
        = render (Html.elem "br" [] [] []) "  " false :=
  c1_void_render "br" [] [] [] [Contents.rawStr "x"] "  " false (by decide)

/-- C2: `render_attributes` emits the `class="..."` attribute first when
the class set is non-empty, then each attribute per the spec reading:
bare name for `true`, nothing for `false`/absent, `name="escaped"` for
strings, in map iteration order. -/
theorem c2_render_attributes_spec (attrs : List (String × AttrValue))
    (classes : List String) :
    renderAttributes attrs classes
      = joinStr "" (((if classes = [] then [] else [classAttrSpec classes])
          ++ attrs.filterMap renderAttrItemSpec).map fun r => " " ++ r) := by
  unfold renderAttributes classAttrSpec
  rw [renderAttrsLoop_eq_filterMap]
  cases classes <;> simp

/-- C6: an element with at least one text-node child renders in
effective inline mode whatever the caller-supplied inline flag: the
element's own layout is the single-line `renderTag` call with
`inline=true`; concretely `Element("p").containing("bar")` rendered
with `indent=""`, `inline=false` is `<p>bar</p>`. -/
theorem c6_text_child_renders_inline (t : String) (attrs : List (String × AttrValue))
    (cs : List Html) (classes : List String) (indent : String) (inline : Bool)
    (h : ∃ s, Html.str s ∈ cs) :
    render (Html.elem t attrs cs classes) indent inline
      = renderTag t attrs classes
          (if VOID_ELEMENTS.contains t then Option.none
           else Option.some (joinStr "" (renderList cs "" true)))
          indent true
    ∧ render ((Html.elem "p" [] [] []).containing [Contents.rawStr "bar"]) "" false
        = "<p>bar</p>" := by
  obtain ⟨s, hs⟩ := h
  have ha : anyInline cs = true := anyInline_of_strChild hs
  exact ⟨by simp [render, mustBeInline, ha], by decide⟩

/-- C6 witness: the `p` element with child text `"bar"`. -/
theorem c6_text_child_renders_inline_witness :
    render (Html.elem "p" [] [Html.str "bar"] []) "" false
      = renderTag "p" [] []
          (if VOID_ELEMENTS.contains "p" then Option.none
           else Option.some (joinStr "" (renderList [Html.str "bar"] "" true)))
          "" true
    ∧ render ((Html.elem "p" [] [] []).containing [Contents.rawStr "bar"]) "" false
        = "<p>bar</p>" :=
  c6_text_child_renders_inline "p" [] [Html.str "bar"] [] "" false
    ⟨"bar", List.mem_singleton.mpr rfl⟩

/-- C7: for a tag in the no-indent set, `render_tag` forces the indent
to empty and inline mode to true regardless of the caller-supplied
values; concretely the `pre` element containing `"  2\n 1\n0"` renders
to `<pre>  2\n 1\n0</pre>` for every caller indent and inline flag. -/
theorem c7_no_indent_forces (t : String) (attrs : List (String × AttrValue))
    (classes : List String) (contents : Option String) (indent : String)
    (inline : Bool) (h : t ∈ NO_INDENT_ELEMENTS) :
    renderTag t attrs classes contents indent inline
      = renderTag t attrs classes contents "" true
    ∧ ∀ ind b, render (Html.elem "pre" [] [Html.str "  2\n 1\n0"] []) ind b
        = "<pre>  2\n 1\n0</pre>" := by
  have h' : NO_INDENT_ELEMENTS.contains t = true := by
    simpa [List.contains] using List.elem_iff.mpr h
  refine ⟨?_, fun ind b => rfl⟩
  cases contents <;> simp [renderTag, h]

/-- C7 witness: the `pre` tag at a concrete nonempty indent and
block-mode flag. -/
theorem c7_no_indent_forces_witness :
    renderTag "pre" [] [] (Option.some "  2\n 1\n0") "    " false
      = renderTag "pre" [] [] (Option.some "  2\n 1\n0") "" true
    ∧ ∀ ind b, render (Html.elem "pre" [] [Html.str "  2\n 1\n0"] []) ind b
        = "<pre>  2\n 1\n0</pre>" :=
  c7_no_indent_forces "pre" [] [] (Option.some "  2\n 1\n0") "    " false (by decide)

/-- C4 counterexample: registering `demo_box` with body `"a"` and then
`demo_box_` (same derived class `demo-box`) with body `"b"` leaves the
second body stored, so the first registration does not win. -/
theorem c4_overwrite_counterexample :
    (styleRegister (styleRegister [] "demo_box" (Option.some "a")).1
        "demo_box_" (Option.some "b")).1
      = [("demo-box", "b")]
    ∧ (styleRegister (styleRegister [] "demo_box" (Option.some "a")).1
        "demo_box_" (Option.some "b")).1
      ≠ [("demo-box", "a")] := by
  constructor
  · decide
  · decide

/-- C4 (amended): when a second registration derives an
already-registered class name, the later call emits the duplicate
warning (the first did not) and overwrites the stored CSS body: last
registration wins, and the stylesheet still contains exactly one block
for that class name. -/
theorem c4_last_registration_wins (f1 f2 c1 c2 : String)
    (h : deriveClassname f2 = deriveClassname f1) :
    (styleRegister [] f1 (Option.some c1)).2 = false
    ∧ (styleRegister (styleRegister [] f1 (Option.some c1)).1 f2 (Option.some c2)).2 = true
    ∧ (styleRegister (styleRegister [] f1 (Option.some c1)).1 f2 (Option.some c2)).1
        = [(deriveClassname f1, pyStrip (pyDedent c2))]
    ∧ renderStylesheet
          (styleRegister (styleRegister [] f1 (Option.some c1)).1 f2 (Option.some c2)).1
        = "." ++ deriveClassname f1 ++ " \x7b\n" ++ pyIndent (pyStrip (pyDedent c2)) ++ "\n\x7d" := by
  refine ⟨rfl, ?_, ?_, ?_⟩ <;>
    simp [styleRegister, dictInsert, renderStylesheet, joinStr, h]

/-- C4 witness: builder names `demo_box` and `demo_box_`, both deriving
class `demo-box`, with bodies `"a"` and `"b"`. -/
theorem c4_last_registration_wins_witness :
    (styleRegister [] "demo_box" (Option.some "a")).2 = false
    ∧ (styleRegister (styleRegister [] "demo_box" (Option.some "a")).1
          "demo_box_" (Option.some "b")).2 = true
    ∧ (styleRegister (styleRegister [] "demo_box" (Option.some "a")).1
          "demo_box_" (Option.some "b")).1
        = [(deriveClassname "demo_box", pyStrip (pyDedent "b"))]
    ∧ renderStylesheet
          (styleRegister (styleRegister [] "demo_box" (Option.some "a")).1
            "demo_box_" (Option.some "b")).1
        = "." ++ deriveClassname "demo_box" ++ " \x7b\n"
            ++ pyIndent (pyStrip (pyDedent "b")) ++ "\n\x7d" :=
  c4_last_registration_wins "demo_box" "demo_box_" "a" "b" (by decide)

/-- C8: `with_data` fails (raises, modelled as `none`) iff some key
violates the pattern "lowercase letters and hyphens only, starting with
a letter"; with all keys valid it sets `data-<key>` for each entry and
returns the element; the map with key `foo-bar` succeeds setting
`data-foo-bar="x"` while the map with key `Foo` fails. -/
theorem c8_with_data (t : String) (attrs : List (String × AttrValue))
    (cs : List Html) (classes : List String) (data : List (String × String)) :
    (withData t attrs cs classes data = Option.none
      ↔ ∃ kv ∈ data, specDataKeyOk kv.1 = false)
    ∧ ((∀ kv ∈ data, specDataKeyOk kv.1 = true) →
        withData t attrs cs classes data
          = Option.some (Html.elem t
              (data.foldl
                (fun acc kv => dictInsert acc ("data-" ++ kv.1) (AttrValue.str kv.2))
                attrs)
              cs classes))
    ∧ withData "div" [] [] [] [("foo-bar", "x")]
        = Option.some (Html.elem "div" [("data-foo-bar", AttrValue.str "x")] [] [])
    ∧ withData "div" [] [] [] [("Foo", "x")] = Option.none := by
  refine ⟨?_, ?_, ?_, ?_⟩
  · by_cases hall : (data.all fun kv => dataKeyMatch kv.1) = true
    · have hall2 := List.all_eq_true.mp hall
      simp only [dataKeyMatch_eq_spec] at hall2
      simp only [withData, hall, if_true]
      constructor
      · intro hcontra; exact absurd hcontra (by simp)
      · rintro ⟨kv, hm, hf⟩
        exact absurd (hall2 kv hm) (by simp [hf])
    · have hall2 : (data.all fun kv => specDataKeyOk kv.1) = false := by
        simpa only [dataKeyMatch_eq_spec, Bool.not_eq_true] using hall
      obtain ⟨kv, hm, hf⟩ := List.all_eq_false.mp hall2
      simp only [withData, hall, if_false]
      exact iff_of_true rfl ⟨kv, hm, by simpa using hf⟩
  · intro hok
    have hall : (data.all fun kv => dataKeyMatch kv.1) = true := by
      rw [List.all_eq_true]
      intro kv hm
      simpa [dataKeyMatch_eq_spec] using hok kv hm
    simp [withData, hall]
  · rfl
  · rfl

/-- C8 witness: the valid map with key `foo-bar` succeeds through the
general success case. -/
theorem c8_with_data_witness :
    withData "div" [] [] [] [("foo-bar", "x")]
      = Option.some (Html.elem "div"
          ([("foo-bar", "x")].foldl
            (fun acc kv => dictInsert acc ("data-" ++ kv.1) (AttrValue.str kv.2)) [])
          [] []) :=
  (c8_with_data "div" [] [] [] [("foo-bar", "x")]).2.1 (by decide)

end Htmlgen
